import Mathlib

/-!
Shallow embedding of the CloudAuth admin panel (`webapp/main.py`).

The relational database is modelled as an explicit in-memory state (`DB`):
the `users` table and the `login_events` table become lists of records, the
AUTO_INCREMENT counters become explicit `next…Id` fields (MySQL starts them
at 1).  Each store function of the Python source becomes a pure function on
`DB`; fallible operations return `Except StoreError DB`, where the error
constructors correspond to the `HTTPException`s the source raises (NotFound =
404 "not found", Conflict = 400 duplicate username from the UNIQUE
constraint, InvariantViolation = 400 "Cannot remove the last admin",
InvalidInput = 400 "Invalid timestamp format").  `500 Unavailable` database
failures are outside the model: the model is the behaviour of a reachable
database.

`hashlib.sha256(...).hexdigest()` is treated as an abstract deterministic
pure function: every definition that hashes takes a parameter
`hash : String → String`.  Timestamps are strings; the server-assigned
insertion time (`DEFAULT CURRENT_TIMESTAMP`) is an explicit `now` argument.
-/

namespace CloudAuth

/-- A row of the `users` table: `id` (AUTO_INCREMENT primary key),
`username` (UNIQUE), `password_hash`, `is_admin`.  The `created_at` column is
set by the database at insertion and is never read by any logic the claims
touch, so it is omitted from the row model. -/
structure User where
  id : Nat
  username : String
  password_hash : String
  is_admin : Bool
deriving Repr, DecidableEq

/-- A row of the `login_events` table: `id` (AUTO_INCREMENT primary key),
`username`, `logged_in_at` (stored here as its string rendering). -/
structure LoginEvent where
  id : Nat
  username : String
  logged_in_at : String
deriving Repr, DecidableEq

/-- The whole database state: both tables plus their AUTO_INCREMENT
counters (MySQL initialises AUTO_INCREMENT to 1). -/
structure DB where
  users : List User
  nextUserId : Nat
  events : List LoginEvent
  nextEventId : Nat
deriving Repr, DecidableEq

/-- The empty database, as created by the schema with no rows. -/
def emptyDB : DB := { users := [], nextUserId := 1, events := [], nextEventId := 1 }

/-- The error taxonomy of the store layer; each constructor corresponds to a
`HTTPException` the Python store functions raise. -/
inductive StoreError where
  | NotFound
  | Conflict
  | InvariantViolation
  | InvalidInput
deriving Repr, DecidableEq

/-- The HTTP status code the source attaches to each store error:
`NotFound` is raised as 404, the rest as 400. -/
def StoreError.statusCode : StoreError → Nat
  | .NotFound => 404
  | _ => 400

deriving instance DecidableEq for Except

/-- `get_user`: `SELECT id, username, password_hash, is_admin FROM users
WHERE username=%s` and fetch one row. -/
def get_user (username : String) (db : DB) : Option User :=
  db.users.find? (fun u => u.username == username)

/-- `admin_count`: `SELECT COUNT(*) FROM users WHERE is_admin=1`. -/
def admin_count (db : DB) : Nat :=
  (db.users.filter (fun u => u.is_admin)).length

/-- `create_user`: `INSERT INTO users (username, password_hash, is_admin)
VALUES (%s, %s, %s)`.  The UNIQUE constraint on `username` makes the insert
raise `IntegrityError` when a row with that username already exists, which
the source converts to a 400 "User already exists." (`Conflict`). -/
def create_user (hash : String → String) (username password : String)
    (is_admin : Bool) (db : DB) : Except StoreError DB :=
  if db.users.any (fun u => u.username == username) then
    Except.error StoreError.Conflict
  else
    Except.ok { db with
      users := db.users ++ [⟨db.nextUserId, username, hash password, is_admin⟩],
      nextUserId := db.nextUserId + 1 }

/-- `set_admin_flag`: looks the user up by username (404 if absent); when the
change would demote a current admin it first checks the admin count and
raises 400 "Cannot remove the last admin." if it is ≤ 1; an unchanged flag
returns without writing; otherwise `UPDATE users SET is_admin=%s WHERE
username=%s`. -/
def set_admin_flag (username : String) (is_admin : Bool) (db : DB) :
    Except StoreError DB :=
  match get_user username db with
  | none => Except.error StoreError.NotFound
  | some row =>
    let write : Except StoreError DB :=
      if row.is_admin == is_admin then
        Except.ok db
      else
        Except.ok { db with users := db.users.map (fun u =>
          if u.username == username then { u with is_admin := is_admin } else u) }
    if row.is_admin && !is_admin then
      if admin_count db ≤ 1 then Except.error StoreError.InvariantViolation
      else write
    else write

/-- The row transformation of `update_user_record`'s UPDATE statement: the
row whose id matches gets the new username and admin flag, and a new
password hash when `new_password` is truthy in Python (present and
non-empty); every other row is untouched. -/
def updatedUserRow (hash : String → String) (user_id : Nat)
    (username : String) (is_admin : Bool) (new_password : Option String)
    (u : User) : User :=
  if u.id == user_id then
    { u with
      username := username,
      is_admin := is_admin,
      password_hash :=
        match new_password with
        | some p => if p.isEmpty then u.password_hash else hash p
        | none => u.password_hash }
  else u

/-- `update_user_record`: looks the user up by id (404 if absent); applies
the same last-admin guard as `set_admin_flag`; then `UPDATE users SET
username=%s, is_admin=%s[, password_hash=%s] WHERE id=%s`.  The password
clause is added only when `new_password` is truthy in Python (present and
non-empty).  The UNIQUE constraint raises `IntegrityError` — converted to
400 "Username already exists." (`Conflict`) — exactly when the new username
already belongs to a different row. -/
def update_user_record (hash : String → String) (user_id : Nat)
    (username : String) (is_admin : Bool) (new_password : Option String)
    (db : DB) : Except StoreError DB :=
  match db.users.find? (fun u => u.id == user_id) with
  | none => Except.error StoreError.NotFound
  | some row =>
    let write : Except StoreError DB :=
      if db.users.any (fun u => u.username == username && !(u.id == user_id)) then
        Except.error StoreError.Conflict
      else
        Except.ok { db with
          users := db.users.map
            (updatedUserRow hash user_id username is_admin new_password) }
    if row.is_admin && !is_admin then
      if admin_count db ≤ 1 then Except.error StoreError.InvariantViolation
      else write
    else write

/-- `record_login_event`: `INSERT INTO login_events (username) VALUES (%s)`;
the `logged_in_at` column takes the server clock (`DEFAULT
CURRENT_TIMESTAMP`), passed here explicitly as `now`. -/
def record_login_event (now : String) (username : String) (db : DB) : DB :=
  { db with
    events := db.events ++ [⟨db.nextEventId, username, now⟩],
    nextEventId := db.nextEventId + 1 }

/-- `delete_login_event`: `DELETE FROM login_events WHERE id=%s`; deleting an
absent id matches zero rows and is not an error. -/
def delete_login_event (event_id : Nat) (db : DB) : DB :=
  { db with events := db.events.filter (fun e => !(e.id == event_id)) }

/-- A parsed naive datetime value, the result of the `datetime.fromisoformat`
call in `parse_timestamp`.  The fractional-second part is validated by the
parser but dropped here, since `strftime("%Y-%m-%d %H:%M:%S")` never renders
it. -/
structure PyDateTime where
  year : Nat
  month : Nat
  day : Nat
  hour : Nat
  minute : Nat
  second : Nat
deriving Repr, DecidableEq

/-- Gregorian leap-year rule, as used by Python's `datetime` range checks. -/
def isLeapYear (y : Nat) : Bool :=
  (y % 4 == 0 && !(y % 100 == 0)) || y % 400 == 0

/-- Number of days in a month, as used by Python's `datetime` range checks. -/
def daysInMonth (y m : Nat) : Nat :=
  if m == 2 then (if isLeapYear y then 29 else 28)
  else if m == 4 || m == 6 || m == 9 || m == 11 then 30
  else 31

/-- Numeric value of a list of decimal digit characters. -/
def digitsToNat (cs : List Char) : Nat :=
  cs.foldl (fun a c => a * 10 + (c.toNat - 48)) 0

/-- Time-of-day parser of CPython's `datetime.fromisoformat`: accepts
`HH`, `HH:MM`, `HH:MM:SS`, `HH:MM:SS.fff` and `HH:MM:SS.ffffff`, with the
usual range checks.  Fractional digits are validated, then discarded (see
`PyDateTime`). -/
def parseIsoTime (cs : List Char) : Option (Nat × Nat × Nat) :=
  let ranged (h mi s : Nat) : Option (Nat × Nat × Nat) :=
    if h ≤ 23 && mi ≤ 59 && s ≤ 59 then some (h, mi, s) else none
  match cs with
  | [h1, h2] =>
    if [h1, h2].all Char.isDigit then ranged (digitsToNat [h1, h2]) 0 0 else none
  | [h1, h2, ':', m1, m2] =>
    if [h1, h2, m1, m2].all Char.isDigit then
      ranged (digitsToNat [h1, h2]) (digitsToNat [m1, m2]) 0
    else none
  | [h1, h2, ':', m1, m2, ':', s1, s2] =>
    if [h1, h2, m1, m2, s1, s2].all Char.isDigit then
      ranged (digitsToNat [h1, h2]) (digitsToNat [m1, m2]) (digitsToNat [s1, s2])
    else none
  | h1 :: h2 :: ':' :: m1 :: m2 :: ':' :: s1 :: s2 :: '.' :: frac =>
    if [h1, h2, m1, m2, s1, s2].all Char.isDigit &&
        frac.all Char.isDigit && (frac.length == 3 || frac.length == 6) then
      ranged (digitsToNat [h1, h2]) (digitsToNat [m1, m2]) (digitsToNat [s1, s2])
    else none
  | _ => none

/-- Model of CPython's `datetime.fromisoformat` (the pre-3.11 inverse of
`datetime.isoformat`), restricted to naive datetimes without a UTC offset —
the only shape this application ever feeds it: a `YYYY-MM-DD` date,
optionally followed by a one-character separator and a time of day.  Range
checks (month 1–12, day valid for the month, year ≥ 1) mirror the
`ValueError`s the Python constructor raises. -/
def fromisoformat (s : String) : Option PyDateTime :=
  match s.data with
  | y1 :: y2 :: y3 :: y4 :: '-' :: m1 :: m2 :: '-' :: d1 :: d2 :: rest =>
    if [y1, y2, y3, y4, m1, m2, d1, d2].all Char.isDigit then
      let y := digitsToNat [y1, y2, y3, y4]
      let mo := digitsToNat [m1, m2]
      let d := digitsToNat [d1, d2]
      if 1 ≤ y && 1 ≤ mo && mo ≤ 12 && 1 ≤ d && d ≤ daysInMonth y mo then
        match rest with
        | [] => some ⟨y, mo, d, 0, 0, 0⟩
        | _sep :: timeChars =>
          match parseIsoTime timeChars with
          | some (h, mi, se) => some ⟨y, mo, d, h, mi, se⟩
          | none => none
      else none
    else none
  | _ => none

/-- Left-pad the decimal rendering of `n` with zeros to width 2. -/
def pad2 (n : Nat) : String :=
  if n < 10 then "0" ++ toString n else toString n

/-- Left-pad the decimal rendering of `n` with zeros to width 4. -/
def pad4 (n : Nat) : String :=
  if n < 10 then "000" ++ toString n
  else if n < 100 then "00" ++ toString n
  else if n < 1000 then "0" ++ toString n
  else toString n

/-- `strftime("%Y-%m-%d %H:%M:%S")` on a parsed datetime. -/
def strftimeSql (dt : PyDateTime) : String :=
  pad4 dt.year ++ "-" ++ pad2 dt.month ++ "-" ++ pad2 dt.day ++ " " ++
    pad2 dt.hour ++ ":" ++ pad2 dt.minute ++ ":" ++ pad2 dt.second

/-- Whitespace as recognised by Python's `str.strip()` (ASCII range). -/
def pyIsSpace (c : Char) : Bool :=
  c == ' ' || c == '\t' || c == '\n' || c == '\r' || c == '\x0b' || c == '\x0c'

/-- Python `value.strip()`: drop leading and trailing whitespace.  Python
strings are modelled as their character lists. -/
def pyStrip (cs : List Char) : List Char :=
  ((cs.dropWhile pyIsSpace).reverse.dropWhile pyIsSpace).reverse

/-- Python `cleaned.replace("T", " ")`: the pattern is a single character,
so the call rewrites every "T" to a space. -/
def pyReplaceTspace (cs : List Char) : List Char :=
  cs.map (fun c => if c == 'T' then ' ' else c)

/-- `parse_timestamp`: strips the input, replaces every "T" with a space,
parses with `datetime.fromisoformat` (400 "Invalid timestamp format." on
`ValueError`) and re-renders via `strftime("%Y-%m-%d %H:%M:%S")`. -/
def parse_timestamp (value : String) : Except StoreError String :=
  let cleaned := pyStrip value.data
  let cleaned := pyReplaceTspace cleaned
  match fromisoformat (String.mk cleaned) with
  | none => Except.error StoreError.InvalidInput
  | some parsed => Except.ok (strftimeSql parsed)

/-- `update_login_event`: `SELECT 1 FROM login_events WHERE id=%s` (404
"Login event not found." when no row), then `UPDATE login_events SET
username=%s, logged_in_at=%s WHERE id=%s` whose parameter tuple evaluates
`parse_timestamp` — so a parse failure raises before any write. -/
def update_login_event (event_id : Nat) (username : String)
    (logged_in_at : String) (db : DB) : Except StoreError DB :=
  if !(db.events.any (fun e => e.id == event_id)) then
    Except.error StoreError.NotFound
  else
    match parse_timestamp logged_in_at with
    | Except.error e => Except.error e
    | Except.ok ts =>
      Except.ok { db with events := db.events.map (fun e =>
        if e.id == event_id then { e with username := username, logged_in_at := ts }
        else e) }

/-- UTF-8 encoding of one character, as a list of byte values. -/
def utf8Bytes (c : Char) : List Nat :=
  let n := c.toNat
  if n < 0x80 then [n]
  else if n < 0x800 then [0xC0 + n / 0x40, 0x80 + n % 0x40]
  else if n < 0x10000 then
    [0xE0 + n / 0x1000, 0x80 + (n / 0x40) % 0x40, 0x80 + n % 0x40]
  else
    [0xF0 + n / 0x40000, 0x80 + (n / 0x1000) % 0x40, 0x80 + (n / 0x40) % 0x40,
      0x80 + n % 0x40]

/-- Characters `urllib.parse.quote` leaves unencoded with its default
`safe='/'`: ASCII letters and digits, `_`, `.`, `-`, `~` and `/`. -/
def quoteSafe (c : Char) : Bool :=
  (c.isAlphanum && c.toNat < 128) || c == '_' || c == '.' || c == '-' ||
    c == '~' || c == '/'

/-- Upper-case hexadecimal digit for a value below 16. -/
def hexDigitUpper (n : Nat) : Char :=
  if n < 10 then Char.ofNat (48 + n) else Char.ofNat (55 + n)

/-- `urllib.parse.quote` with its default arguments: every unsafe character
is replaced by the `%XX` renderings of its UTF-8 bytes. -/
def quote (s : String) : String :=
  String.mk (s.data.foldr (fun c acc =>
    if quoteSafe c then c :: acc
    else (utf8Bytes c).foldr
      (fun b acc2 => '%' :: hexDigitUpper (b / 16) :: hexDigitUpper (b % 16) :: acc2)
      acc) [])

/-- `exc.detail` of the exceptions `set_admin_flag` raises (it can only
produce `NotFound` and `InvariantViolation`; the other rows are the details
those constructors carry elsewhere and are unreachable from this call). -/
def detail_set_admin_flag : StoreError → String
  | .NotFound => "User not found."
  | .InvariantViolation => "Cannot remove the last admin."
  | .Conflict => "User already exists."
  | .InvalidInput => "Invalid timestamp format."

/-- `exc.detail` of the exceptions `update_user_record` raises
(`NotFound`, `InvariantViolation` or `Conflict`). -/
def detail_update_user_record : StoreError → String
  | .NotFound => "User not found."
  | .InvariantViolation => "Cannot remove the last admin."
  | .Conflict => "Username already exists."
  | .InvalidInput => "Invalid timestamp format."

/-- `exc.detail` of the exceptions `update_login_event` raises
(`NotFound` or `InvalidInput`). -/
def detail_update_login_event : StoreError → String
  | .NotFound => "Login event not found."
  | .InvalidInput => "Invalid timestamp format."
  | .Conflict => "User already exists."
  | .InvariantViolation => "Cannot remove the last admin."

/-- The observable part of a handler's HTTP response: a 303 redirect with
its `Location` and optional `Set-Cookie: session_user=…`, a rendered 200
page (markup abstracted away), or a bare HTTP error status from an uncaught
`HTTPException` (403 "Admins only", or a re-raised store error). -/
inductive HResp where
  | redirect (location : String) (setCookie : Option String)
  | page
  | httpError (code : Nat)
deriving Repr, DecidableEq

/-- `current_user`: reads the `session_user` cookie; Python's
`if not username` returns `None` both when the cookie is absent and when its
value is the empty string; otherwise delegates to `get_user`. -/
def current_user (cookie : Option String) (db : DB) : Option User :=
  match cookie with
  | none => none
  | some username => if username.isEmpty then none else get_user username db

/-- `POST /login`: looks the user up, compares the stored hash against the
hash of the submitted password; on mismatch (or unknown user) redirects back
to the form with an error and touches nothing; on success records one login
event, redirects home and sets the session cookie to the username. -/
def login (hash : String → String) (now username password : String) (db : DB) :
    HResp × DB :=
  match get_user username db with
  | none => (HResp.redirect "/login?error=Invalid%20credentials" none, db)
  | some user =>
    if !(user.password_hash == hash password) then
      (HResp.redirect "/login?error=Invalid%20credentials" none, db)
    else
      (HResp.redirect "/" (some username), record_login_event now username db)

/-- `POST /register`: redirects back with an error when the username is
taken; otherwise the new account is an admin exactly when `admin_count` is
zero; a 400 from `create_user` also redirects back (other statuses would
re-raise); on success sets the session cookie and redirects home. -/
def register (hash : String → String) (username password : String) (db : DB) :
    HResp × DB :=
  match get_user username db with
  | some _ => (HResp.redirect "/register?error=User%20already%20exists" none, db)
  | none =>
    let is_first_admin := admin_count db == 0
    match create_user hash username password is_first_admin db with
    | Except.error e =>
      if e.statusCode == 400 then
        (HResp.redirect "/register?error=User%20already%20exists" none, db)
      else (HResp.httpError e.statusCode, db)
    | Except.ok db2 => (HResp.redirect "/" (some username), db2)

/-- `GET /admin`: anonymous requests are redirected to the login form,
authenticated non-admins get 403 "Admins only", admins get the rendered
overview; the handler never mutates the store. -/
def admin_panel (cookie : Option String) (db : DB) : HResp × DB :=
  match current_user cookie db with
  | none => (HResp.redirect "/login?error=Login%20required" none, db)
  | some u =>
    if !u.is_admin then (HResp.httpError 403, db)
    else (HResp.page, db)

/-- `GET /admin/editor`: same guard sequence as `GET /admin`; reads both
tables and renders them; never mutates the store. -/
def table_editor (cookie : Option String) (db : DB) : HResp × DB :=
  match current_user cookie db with
  | none => (HResp.redirect "/login?error=Login%20required" none, db)
  | some u =>
    if !u.is_admin then (HResp.httpError 403, db)
    else (HResp.page, db)

/-- `POST /admin/role`: guard sequence, then `set_admin_flag(username,
bool(int(is_admin)))`; a store error becomes a redirect back to `/admin`
carrying the quoted detail, success a redirect with a success message. -/
def update_admin_role (username : String) (is_admin : Int)
    (cookie : Option String) (db : DB) : HResp × DB :=
  match current_user cookie db with
  | none => (HResp.redirect "/login?error=Login%20required" none, db)
  | some u =>
    if !u.is_admin then (HResp.httpError 403, db)
    else
      match set_admin_flag username (!(is_admin == 0)) db with
      | Except.error e =>
        (HResp.redirect ("/admin?error=" ++ quote (detail_set_admin_flag e)) none, db)
      | Except.ok db2 =>
        (HResp.redirect
          ("/admin?success=" ++ quote ("Updated admin access for " ++ username ++ "."))
          none, db2)

/-- `POST /admin/editor/users/update`: guard sequence, then
`update_user_record` with `bool(int(is_admin))` and
`new_password.strip() or None`. -/
def admin_edit_user (hash : String → String) (user_id : Nat)
    (username : String) (is_admin : Int) (new_password : String)
    (cookie : Option String) (db : DB) : HResp × DB :=
  match current_user cookie db with
  | none => (HResp.redirect "/login?error=Login%20required" none, db)
  | some u =>
    if !u.is_admin then (HResp.httpError 403, db)
    else
      let stripped := String.mk (pyStrip new_password.data)
      let pw := if stripped.isEmpty then none else some stripped
      match update_user_record hash user_id username (!(is_admin == 0)) pw db with
      | Except.error e =>
        (HResp.redirect ("/admin/editor?error=" ++ quote (detail_update_user_record e))
          none, db)
      | Except.ok db2 =>
        (HResp.redirect "/admin/editor?success=User%20updated" none, db2)

/-- `POST /admin/editor/login/update`: guard sequence, then
`update_login_event`. -/
def admin_edit_login_event (event_id : Nat) (username logged_in_at : String)
    (cookie : Option String) (db : DB) : HResp × DB :=
  match current_user cookie db with
  | none => (HResp.redirect "/login?error=Login%20required" none, db)
  | some u =>
    if !u.is_admin then (HResp.httpError 403, db)
    else
      match update_login_event event_id username logged_in_at db with
      | Except.error e =>
        (HResp.redirect ("/admin/editor?error=" ++ quote (detail_update_login_event e))
          none, db)
      | Except.ok db2 =>
        (HResp.redirect "/admin/editor?success=Login%20event%20updated" none, db2)

/-- `POST /admin/editor/login/delete`: guard sequence, then
`delete_login_event`, which cannot raise in this model (its only failure
mode in the source is database unavailability). -/
def admin_delete_login_event (event_id : Nat) (cookie : Option String)
    (db : DB) : HResp × DB :=
  match current_user cookie db with
  | none => (HResp.redirect "/login?error=Login%20required" none, db)
  | some u =>
    if !u.is_admin then (HResp.httpError 403, db)
    else
      (HResp.redirect "/admin/editor?success=Login%20event%20deleted" none,
        delete_login_event event_id db)

/-- The database state after a store call: a successful call commits its new
state, a call that raised leaves the previous state in place (each store
function performs at most one mutating statement, committed at the end, so a
raise never publishes a partial write). -/
def commitResult (db : DB) : Except StoreError DB → DB
  | Except.ok db2 => db2
  | Except.error _ => db

/-- One user-store mutation of the kind the last-admin invariant quantifies
over: a `set_admin_flag` call (keyed by username) or an
`update_user_record` call (keyed by id). -/
inductive AdminOp where
  | setFlag (username : String) (is_admin : Bool)
  | updateRec (user_id : Nat) (username : String) (is_admin : Bool)
      (new_password : Option String)

/-- Run one `AdminOp` against the database; a raising call leaves the state
unchanged. -/
def applyAdminOp (hash : String → String) (db : DB) : AdminOp → DB
  | AdminOp.setFlag un a => commitResult db (set_admin_flag un a db)
  | AdminOp.updateRec uid un a pw =>
    commitResult db (update_user_record hash uid un a pw db)

/-- Run a sequence of `AdminOp`s in order. -/
def applyAdminOps (hash : String → String) (ops : List AdminOp) (db : DB) : DB :=
  ops.foldl (applyAdminOp hash) db

/-- Run a sequence of `POST /register` submissions (username, password) in
order, keeping only the database states. -/
def applyRegisters (hash : String → String) (regs : List (String × String))
    (db : DB) : DB :=
  regs.foldl (fun d r => (register hash r.1 r.2 d).2) db

/-- The two schema constraints of the `users` table that the database itself
enforces: `username` is UNIQUE and `id` is the primary key. -/
def UsersWF (db : DB) : Prop :=
  (db.users.map User.username).Nodup ∧ (db.users.map User.id).Nodup

/-- Invariant of every database reachable from the empty one by
registrations alone: the rows sit in creation order with ids 1, 2, …, the
AUTO_INCREMENT counter is one past the last id, and a row carries the admin
flag exactly when it is the very first row ever created (id 1). -/
def RegInv (db : DB) : Prop :=
  db.users.map User.id = List.range' 1 db.users.length
  ∧ (∀ u ∈ db.users, (u.is_admin = true ↔ u.id = 1))
  ∧ db.nextUserId = db.users.length + 1

/-- A database with a single admin whose username is the empty string —
reachable from the empty database by one `POST /register` whose submitted
username is empty (the registration handler never rejects it). -/
def dbEmptyName : DB :=
  { users := [⟨1, "", "x", true⟩], nextUserId := 2, events := [], nextEventId := 1 }

/-- A small concrete database used to instantiate the general theorems:
one admin "alice", one regular user "bob", one recorded login event. -/
def dbSample : DB :=
  { users := [⟨1, "alice", "h1", true⟩, ⟨2, "bob", "h2", false⟩],
    nextUserId := 3,
    events := [⟨1, "alice", "2024-01-01 00:00:00"⟩],
    nextEventId := 2 }

/-- C5: creating a user under a username that already exists anywhere in the
store fails with `Conflict` (the UNIQUE constraint's `IntegrityError`,
reported as 400 "User already exists."), and the user store after the
rejected call is exactly the store before it. -/
theorem C5_create_duplicate_conflict (hash : String → String)
    (username password : String) (is_admin : Bool) (db : DB)
    (h : ∃ u ∈ db.users, u.username = username) :
    create_user hash username password is_admin db =
      Except.error StoreError.Conflict
    ∧ commitResult db (create_user hash username password is_admin db) = db := by
  have hany : db.users.any (fun u => u.username == username) = true := by
    obtain ⟨u, hu, he⟩ := h
    exact List.any_eq_true.mpr ⟨u, hu, by simp [he]⟩
  refine ⟨by simp [create_user, hany], by simp [create_user, hany, commitResult]⟩

/-- Witness for C5 at a concrete input: re-creating "alice" in `dbSample`
is rejected with `Conflict` and commits nothing. -/
theorem C5_create_duplicate_conflict_witness :
    create_user (fun s => s) "alice" "pw" false dbSample =
      Except.error StoreError.Conflict
    ∧ commitResult dbSample (create_user (fun s => s) "alice" "pw" false dbSample) =
      dbSample :=
  C5_create_duplicate_conflict (fun s => s) "alice" "pw" false dbSample
    (by decide)

/-- C8: `set_admin_flag` fails with `NotFound` when no user carries the
username, and is a successful no-op — the returned state is the input state,
every record untouched — when the user already has the requested flag. -/
theorem C8_set_admin_flag_absent_and_noop (username : String) (a : Bool)
    (db : DB) :
    (get_user username db = none →
      set_admin_flag username a db = Except.error StoreError.NotFound)
    ∧ (∀ u, get_user username db = some u → u.is_admin = a →
      set_admin_flag username a db = Except.ok db) := by
  constructor
  · intro h
    simp [set_admin_flag, h]
  · intro u hu he
    cases a <;> simp [set_admin_flag, hu, he]

/-- Witness for C8 at concrete inputs: "carol" is absent from `dbSample`
(`NotFound`), and re-granting "alice" the admin flag she already has
succeeds and returns the unchanged store. -/
theorem C8_set_admin_flag_absent_and_noop_witness :
    set_admin_flag "carol" true dbSample = Except.error StoreError.NotFound
    ∧ set_admin_flag "alice" true dbSample = Except.ok dbSample :=
  ⟨(C8_set_admin_flag_absent_and_noop "carol" true dbSample).1 (by decide),
    (C8_set_admin_flag_absent_and_noop "alice" true dbSample).2
      ⟨1, "alice", "h1", true⟩ (by decide) rfl⟩

/-- C9: deleting a login-event id that is not in the store succeeds and
leaves the events exactly as they were, and deleting the same id twice gives
the same final state as deleting it once. -/
theorem C9_delete_absent_idempotent (event_id : Nat) (db : DB) :
    ((∀ e ∈ db.events, e.id ≠ event_id) → delete_login_event event_id db = db)
    ∧ delete_login_event event_id (delete_login_event event_id db) =
      delete_login_event event_id db := by
  constructor
  · intro h
    have : db.events.filter (fun e => !(e.id == event_id)) = db.events :=
      List.filter_eq_self.mpr (fun e he => by simpa using h e he)
    simp [delete_login_event, this]
  · simp [delete_login_event, List.filter_filter]

/-- Witness for C9 at a concrete input: deleting absent id 7 from `dbSample`
changes nothing, and deleting id 1 twice equals deleting it once. -/
theorem C9_delete_absent_idempotent_witness :
    delete_login_event 7 dbSample = dbSample
    ∧ delete_login_event 1 (delete_login_event 1 dbSample) =
      delete_login_event 1 dbSample :=
  ⟨(C9_delete_absent_idempotent 7 dbSample).1 (by decide),
    (C9_delete_absent_idempotent 1 dbSample).2⟩

/-- C6: for an existing login-event id, updating with the `T`-separated and
the space-separated rendering of the same instant produces identical
results, the stored timestamp being the normalized
"2024-01-05 10:30:00"; updating with "not-a-date" fails with `InvalidInput`
and commits nothing, so the row keeps its username and timestamp. -/
theorem C6_update_event_timestamp_normalization (event_id : Nat)
    (username : String) (db : DB) (h : ∃ e ∈ db.events, e.id = event_id) :
    update_login_event event_id username "2024-01-05T10:30:00" db =
      update_login_event event_id username "2024-01-05 10:30:00" db
    ∧ (∀ db2,
        update_login_event event_id username "2024-01-05T10:30:00" db =
          Except.ok db2 →
        ∃ e ∈ db2.events, e.id = event_id ∧ e.username = username ∧
          e.logged_in_at = "2024-01-05 10:30:00")
    ∧ update_login_event event_id username "not-a-date" db =
        Except.error StoreError.InvalidInput
    ∧ commitResult db (update_login_event event_id username "not-a-date" db) =
        db := by
  have hp1 : parse_timestamp "2024-01-05T10:30:00" =
      Except.ok "2024-01-05 10:30:00" := by decide
  have hp2 : parse_timestamp "2024-01-05 10:30:00" =
      Except.ok "2024-01-05 10:30:00" := by decide
  have hp3 : parse_timestamp "not-a-date" =
      Except.error StoreError.InvalidInput := by decide
  have hany : db.events.any (fun e => e.id == event_id) = true := by
    obtain ⟨e, he, hid⟩ := h
    exact List.any_eq_true.mpr ⟨e, he, by simp [hid]⟩
  refine ⟨by simp [update_login_event, hany, hp1, hp2], ?_,
    by simp [update_login_event, hany, hp3],
    by simp [update_login_event, hany, hp3, commitResult]⟩
  intro db2 hdb2
  simp only [update_login_event, hany, hp1, Bool.not_true, Bool.false_eq_true,
    if_false, Except.ok.injEq] at hdb2
  obtain ⟨e, he, hid⟩ := h
  refine ⟨{ e with username := username, logged_in_at := "2024-01-05 10:30:00" },
    ?_, by simp [hid], rfl, rfl⟩
  rw [← hdb2]
  have : (if e.id == event_id then
      { e with username := username, logged_in_at := "2024-01-05 10:30:00" }
      else e) =
      { e with username := username, logged_in_at := "2024-01-05 10:30:00" } := by
    simp [hid]
  exact this ▸ List.mem_map_of_mem _ he

/-- Witness for C6 at a concrete input: event id 1 exists in `dbSample`, the
two renderings update it identically, and "not-a-date" is rejected. -/
theorem C6_update_event_timestamp_normalization_witness :
    update_login_event 1 "bob" "2024-01-05T10:30:00" dbSample =
      update_login_event 1 "bob" "2024-01-05 10:30:00" dbSample
    ∧ update_login_event 1 "bob" "not-a-date" dbSample =
      Except.error StoreError.InvalidInput :=
  ⟨(C6_update_event_timestamp_normalization 1 "bob" dbSample (by decide)).1,
    (C6_update_event_timestamp_normalization 1 "bob" dbSample (by decide)).2.2.1⟩

/-- C3: a login whose username resolves and whose submitted password hashes
to the stored hash appends exactly one login event for that username and
answers a redirect home that sets the session cookie to the username; any
other login (unknown user, or hash mismatch) answers the error redirect,
sets no cookie, and appends nothing. -/
theorem C3_login_event_and_cookie (hash : String → String)
    (now username password : String) (db : DB) :
    (∀ u, get_user username db = some u → u.password_hash = hash password →
      login hash now username password db =
        (HResp.redirect "/" (some username), record_login_event now username db)
      ∧ (record_login_event now username db).events =
          db.events ++ [⟨db.nextEventId, username, now⟩])
    ∧ ((∀ u, get_user username db = some u → u.password_hash ≠ hash password) →
      login hash now username password db =
        (HResp.redirect "/login?error=Invalid%20credentials" none, db)) := by
  constructor
  · intro u hu he
    exact ⟨by simp [login, hu, he], by simp [record_login_event]⟩
  · intro hfail
    cases hg : get_user username db with
    | none => simp [login, hg]
    | some u =>
      have hne : ¬(u.password_hash == hash password) := by
        simpa using hfail u hg
      simp [login, hg, hne]

/-- Witness for C3 at concrete inputs: with the identity as the hash
function, "alice"/"h1" succeeds against `dbSample` (one event appended,
cookie set), and "alice"/"wrong" fails with the error redirect. -/
theorem C3_login_event_and_cookie_witness :
    login (fun s => s) "2024-03-01 09:00:00" "alice" "h1" dbSample =
      (HResp.redirect "/" (some "alice"),
        record_login_event "2024-03-01 09:00:00" "alice" dbSample)
    ∧ login (fun s => s) "2024-03-01 09:00:00" "alice" "wrong" dbSample =
      (HResp.redirect "/login?error=Invalid%20credentials" none, dbSample) :=
  ⟨((C3_login_event_and_cookie (fun s => s) "2024-03-01 09:00:00" "alice" "h1"
      dbSample).1 ⟨1, "alice", "h1", true⟩ (by decide) rfl).1,
    (C3_login_event_and_cookie (fun s => s) "2024-03-01 09:00:00" "alice" "wrong"
      dbSample).2 (by decide)⟩

/-- C10: a failing login for an unknown username and a failing login for a
known username with a wrong password produce the same response value — the
303 redirect to the login form with the encoded error, no cookie — and both
leave the database untouched, so the response does not reveal whether the
username exists. -/
theorem C10_login_failure_indistinguishable (hash : String → String)
    (now u1 p1 u2 p2 : String) (db : DB) (h1 : get_user u1 db = none)
    (u : User) (h2 : get_user u2 db = some u)
    (h3 : u.password_hash ≠ hash p2) :
    login hash now u1 p1 db = login hash now u2 p2 db
    ∧ login hash now u1 p1 db =
      (HResp.redirect "/login?error=Invalid%20credentials" none, db) := by
  have e1 : login hash now u1 p1 db =
      (HResp.redirect "/login?error=Invalid%20credentials" none, db) := by
    simp [login, h1]
  have e2 : login hash now u2 p2 db =
      (HResp.redirect "/login?error=Invalid%20credentials" none, db) := by
    have hne : ¬(u.password_hash == hash p2) := by simpa using h3
    simp [login, h2, hne]
  exact ⟨e1.trans e2.symm, e1⟩

/-- Witness for C10 at concrete inputs: against `dbSample` (hash = identity),
the unknown user "carol" and the known user "bob" with a wrong password get
identical responses. -/
theorem C10_login_failure_indistinguishable_witness :
    login (fun s => s) "2024-03-01 09:00:00" "carol" "pw" dbSample =
      login (fun s => s) "2024-03-01 09:00:00" "bob" "wrong" dbSample :=
  (C10_login_failure_indistinguishable (fun s => s) "2024-03-01 09:00:00"
    "carol" "pw" "bob" "wrong" dbSample (by decide) ⟨2, "bob", "h2", false⟩
    (by decide) (by decide)).1

/-- C7 fails as stated: with a session cookie present but holding the empty
string, `current_user` returns `None` without consulting the store
(Python's `if not username`), while `findByUsername("")` can return a user —
and a user whose username is the empty string is reachable, by one
registration submitting an empty username.  At that state the resolver and
the lookup disagree. -/
theorem C7_counterexample_empty_cookie :
    (register (fun _ => "x") "" "pw" emptyDB).2 = dbEmptyName
    ∧ get_user "" dbEmptyName = some ⟨1, "", "x", true⟩
    ∧ current_user (some "") dbEmptyName = none
    ∧ current_user (some "") dbEmptyName ≠ get_user "" dbEmptyName := by
  refine ⟨by decide, by decide, by decide, by decide⟩

/-- C7 as amended: session resolution returns absent when no cookie is
present or when the cookie value is the empty string; for a nonempty cookie
value it returns exactly `get_user` of that value — so every user whose
username is nonempty is authenticated by a request carrying that username
as the cookie value, with no further verification. -/
theorem C7_session_is_username_lookup (cookie : Option String) (db : DB) :
    (cookie = none ∨ cookie = some "" → current_user cookie db = none)
    ∧ (∀ s, cookie = some s → s ≠ "" → current_user cookie db = get_user s db)
    ∧ (∀ s u, s ≠ "" → get_user s db = some u →
      current_user (some s) db = some u) := by
  refine ⟨?_, ?_, ?_⟩
  · have hemp : "".isEmpty = true := rfl
    rintro (rfl | rfl) <;> simp [current_user, hemp]
  · rintro s rfl hne
    simp [current_user, String.isEmpty_iff, hne]
  · intro s u hne hu
    simp [current_user, String.isEmpty_iff, hne, hu]

/-- Witness for the amended C7 at concrete inputs: in `dbSample` the cookie
value "bob" authenticates as bob with no further check, and an absent
cookie resolves to no user. -/
theorem C7_session_is_username_lookup_witness :
    current_user (some "bob") dbSample = some ⟨2, "bob", "h2", false⟩
    ∧ current_user none dbSample = none :=
  ⟨(C7_session_is_username_lookup (some "bob") dbSample).2.2 "bob"
      ⟨2, "bob", "h2", false⟩ (by decide) (by decide),
    (C7_session_is_username_lookup none dbSample).1 (Or.inl rfl)⟩

/-- C4: on every admin-only endpoint (`GET /admin`, `GET /admin/editor`,
`POST /admin/role`, `POST /admin/editor/users/update`,
`POST /admin/editor/login/update`, `POST /admin/editor/login/delete`), a
request with no resolved session user gets the 303 redirect to the login
form and the database is untouched; a resolved non-admin gets 403 and the
database is untouched; a resolved admin gets through to the store
operation, the final database being exactly the store operation's result
(unchanged when the operation raises). -/
theorem C4_admin_only_guard (hash : String → String) (user_id event_id : Nat)
    (username new_password logged_in_at : String) (is_admin : Int)
    (cookie : Option String) (db : DB) :
    (current_user cookie db = none →
      admin_panel cookie db =
        (HResp.redirect "/login?error=Login%20required" none, db)
      ∧ table_editor cookie db =
        (HResp.redirect "/login?error=Login%20required" none, db)
      ∧ update_admin_role username is_admin cookie db =
        (HResp.redirect "/login?error=Login%20required" none, db)
      ∧ admin_edit_user hash user_id username is_admin new_password cookie db =
        (HResp.redirect "/login?error=Login%20required" none, db)
      ∧ admin_edit_login_event event_id username logged_in_at cookie db =
        (HResp.redirect "/login?error=Login%20required" none, db)
      ∧ admin_delete_login_event event_id cookie db =
        (HResp.redirect "/login?error=Login%20required" none, db))
    ∧ (∀ u, current_user cookie db = some u → u.is_admin = false →
      admin_panel cookie db = (HResp.httpError 403, db)
      ∧ table_editor cookie db = (HResp.httpError 403, db)
      ∧ update_admin_role username is_admin cookie db = (HResp.httpError 403, db)
      ∧ admin_edit_user hash user_id username is_admin new_password cookie db =
        (HResp.httpError 403, db)
      ∧ admin_edit_login_event event_id username logged_in_at cookie db =
        (HResp.httpError 403, db)
      ∧ admin_delete_login_event event_id cookie db = (HResp.httpError 403, db))
    ∧ (∀ u, current_user cookie db = some u → u.is_admin = true →
      admin_panel cookie db = (HResp.page, db)
      ∧ table_editor cookie db = (HResp.page, db)
      ∧ (update_admin_role username is_admin cookie db).2 =
        commitResult db (set_admin_flag username (!(is_admin == 0)) db)
      ∧ (admin_edit_user hash user_id username is_admin new_password cookie db).2 =
        commitResult db (update_user_record hash user_id username
          (!(is_admin == 0))
          (if (String.mk (pyStrip new_password.data)).isEmpty then none
            else some (String.mk (pyStrip new_password.data))) db)
      ∧ (admin_edit_login_event event_id username logged_in_at cookie db).2 =
        commitResult db (update_login_event event_id username logged_in_at db)
      ∧ (admin_delete_login_event event_id cookie db).2 =
        delete_login_event event_id db) := by
  refine ⟨?_, ?_, ?_⟩
  · intro h
    refine ⟨?_, ?_, ?_, ?_, ?_, ?_⟩ <;>
      simp [admin_panel, table_editor, update_admin_role, admin_edit_user,
        admin_edit_login_event, admin_delete_login_event, h]
  · intro u hu hna
    refine ⟨?_, ?_, ?_, ?_, ?_, ?_⟩ <;>
      simp [admin_panel, table_editor, update_admin_role, admin_edit_user,
        admin_edit_login_event, admin_delete_login_event, hu, hna]
  · intro u hu ha
    refine ⟨by simp [admin_panel, hu, ha], by simp [table_editor, hu, ha],
      ?_, ?_, ?_, by simp [admin_delete_login_event, hu, ha]⟩
    · simp only [update_admin_role, hu, ha]
      cases hr : set_admin_flag username (!(is_admin == 0)) db <;>
        simp [hr, commitResult]
    · simp only [admin_edit_user, hu, ha]
      cases hr : update_user_record hash user_id username (!(is_admin == 0))
          (if (String.mk (pyStrip new_password.data)).isEmpty then none
            else some (String.mk (pyStrip new_password.data))) db <;>
        simp [hr, commitResult]
    · simp only [admin_edit_login_event, hu, ha]
      cases hr : update_login_event event_id username logged_in_at db <;>
        simp [hr, commitResult]

/-- Witness for C4 at concrete inputs: in `dbSample`, an anonymous request
to `GET /admin` is redirected to the login form, a request by non-admin
"bob" gets 403, and a `POST /admin/role` by admin "alice" promoting "bob"
commits exactly the `set_admin_flag` result. -/
theorem C4_admin_only_guard_witness :
    admin_panel none dbSample =
      (HResp.redirect "/login?error=Login%20required" none, dbSample)
    ∧ update_admin_role "bob" 1 (some "bob") dbSample =
      (HResp.httpError 403, dbSample)
    ∧ (update_admin_role "bob" 1 (some "alice") dbSample).2 =
      commitResult dbSample (set_admin_flag "bob" (!((1 : Int) == 0)) dbSample) :=
  ⟨((C4_admin_only_guard (fun s => s) 1 1 "bob" "" "" 1 none dbSample).1
      (by decide)).1,
    ((C4_admin_only_guard (fun s => s) 1 1 "bob" "" "" 1 (some "bob")
      dbSample).2.1 ⟨2, "bob", "h2", false⟩ (by decide) rfl).2.2.1,
    ((C4_admin_only_guard (fun s => s) 1 1 "bob" "" "" 1 (some "alice")
      dbSample).2.2 ⟨1, "alice", "h1", true⟩ (by decide) rfl).2.2.1⟩

theorem countP_key_le_one {α β : Type} [DecidableEq β] (f : α → β) (x : β)
    (l : List α) (h : (l.map f).Nodup) :
    l.countP (fun u => f u == x) ≤ 1 := by
  induction l with
  | nil => simp
  | cons a l ih =>
    rw [List.map_cons, List.nodup_cons] at h
    obtain ⟨hna, hnd⟩ := h
    by_cases hax : f a = x
    · have hz : l.countP (fun u => f u == x) = 0 := by
        rw [List.countP_eq_zero]
        intro u hu
        simp only [beq_iff_eq]
        intro hux
        exact hna ((hux.trans hax.symm) ▸ List.mem_map_of_mem f hu)
      rw [List.countP_cons]
      simp [hax, hz]
    · rw [List.countP_cons]
      simp only [beq_iff_eq, hax, if_false]
      simpa using ih hnd

theorem countP_le_countP_map {α : Type} (l : List α) (g : α → α) (p : α → Bool)
    (h : ∀ u ∈ l, p u = true → p (g u) = true) :
    l.countP p ≤ (l.map g).countP p := by
  induction l with
  | nil => simp
  | cons a l ih =>
    rw [List.map_cons]
    have hih := ih (fun u hu => h u (List.mem_cons_of_mem a hu))
    by_cases hpa : p a = true
    · have hga : p (g a) = true := h a (List.mem_cons_self a l) hpa
      rw [List.countP_cons_of_pos _ _ hpa, List.countP_cons_of_pos _ _ hga]
      omega
    · rw [List.countP_cons_of_neg _ _ hpa]
      by_cases hga : p (g a) = true
      · rw [List.countP_cons_of_pos _ _ hga]
        omega
      · rw [List.countP_cons_of_neg _ _ hga]
        omega

theorem countP_sub_le_countP_map {α : Type} (l : List α) (g : α → α)
    (q p : α → Bool) (hg : ∀ u, q u = false → g u = u) :
    l.countP p - l.countP q ≤ (l.map g).countP p := by
  induction l with
  | nil => simp
  | cons a l ih =>
    rw [List.map_cons]
    by_cases hq : q a = true
    · rw [List.countP_cons_of_pos _ _ hq]
      by_cases hpa : p a = true
      · rw [List.countP_cons_of_pos _ _ hpa]
        by_cases hpg : p (g a) = true
        · rw [List.countP_cons_of_pos _ _ hpg]
          omega
        · rw [List.countP_cons_of_neg _ _ hpg]
          omega
      · rw [List.countP_cons_of_neg _ _ hpa]
        by_cases hpg : p (g a) = true
        · rw [List.countP_cons_of_pos _ _ hpg]
          omega
        · rw [List.countP_cons_of_neg _ _ hpg]
          omega
    · rw [List.countP_cons_of_neg _ _ hq, hg a (by simpa using hq)]
      by_cases hpa : p a = true
      · rw [List.countP_cons_of_pos _ _ hpa, List.countP_cons_of_pos _ _ hpa]
        omega
      · rw [List.countP_cons_of_neg _ _ hpa, List.countP_cons_of_neg _ _ hpa]
        omega

theorem admin_count_eq_countP (db : DB) :
    admin_count db = db.users.countP (fun u => u.is_admin) := by
  simp [admin_count, List.countP_eq_length_filter]

theorem set_admin_flag_ok_users (un : String) (a : Bool) (db db' : DB)
    (h : set_admin_flag un a db = Except.ok db') :
    (db' = db)
    ∨ (db'.users = db.users.map (fun u =>
        if u.username == un then { u with is_admin := a } else u)
      ∧ (a = true ∨ 2 ≤ admin_count db)) := by
  cases hg : get_user un db with
  | none => simp [set_admin_flag, hg] at h
  | some row =>
    simp only [set_admin_flag, hg] at h
    split at h
    · rename_i hguard
      split at h
      · exact absurd h (by simp)
      · rename_i hle
        split at h
        · simp only [Except.ok.injEq] at h
          exact Or.inl h.symm
        · simp only [Except.ok.injEq] at h
          refine Or.inr ⟨?_, Or.inr (by omega)⟩
          rw [← h]
    · rename_i hguard
      split at h
      · simp only [Except.ok.injEq] at h
        exact Or.inl h.symm
      · rename_i hne
        simp only [Except.ok.injEq] at h
        refine Or.inr ⟨by rw [← h], Or.inl ?_⟩
        cases a
        · exfalso
          cases hrow : row.is_admin <;> simp [hrow] at hguard hne
        · rfl

theorem set_admin_flag_ok_preserves (un : String) (a : Bool) (db db' : DB)
    (hnd : (db.users.map User.username).Nodup)
    (hcount : 1 ≤ admin_count db)
    (h : set_admin_flag un a db = Except.ok db') :
    1 ≤ admin_count db'
    ∧ db'.users.length = db.users.length
    ∧ db'.users.map User.username = db.users.map User.username
    ∧ db'.users.map User.id = db.users.map User.id := by
  rcases set_admin_flag_ok_users un a db db' h with rfl | ⟨husers, hcase⟩
  · exact ⟨hcount, rfl, rfl, rfl⟩
  · refine ⟨?_, by rw [husers, List.length_map], ?_, ?_⟩
    · rw [admin_count_eq_countP, husers]
      rcases hcase with rfl | h2
      · have hmono := countP_le_countP_map db.users
          (fun u => if u.username == un then { u with is_admin := true } else u)
          (fun u => u.is_admin)
          (fun u _ hp => by
            by_cases hcond : (u.username == un) = true <;> simp [hcond, hp])
        rw [admin_count_eq_countP] at hcount
        omega
      · have hsub := countP_sub_le_countP_map db.users
          (fun u => if u.username == un then { u with is_admin := a } else u)
          (fun u => u.username == un) (fun u => u.is_admin)
          (fun u hq => by simp [hq])
        have hone := countP_key_le_one User.username un db.users hnd
        rw [admin_count_eq_countP] at h2
        omega
    · rw [husers, List.map_map]
      refine List.map_congr_left (fun u _ => ?_)
      by_cases hcond : u.username = un <;> simp [hcond]
    · rw [husers, List.map_map]
      refine List.map_congr_left (fun u _ => ?_)
      by_cases hcond : u.username = un <;> simp [hcond]

theorem updatedUserRow_id (hash : String → String) (uid : Nat) (un : String)
    (a : Bool) (pw : Option String) (u : User) :
    (updatedUserRow hash uid un a pw u).id = u.id := by
  by_cases hc : u.id = uid <;> simp [updatedUserRow, hc]

theorem updatedUserRow_username (hash : String → String) (uid : Nat)
    (un : String) (a : Bool) (pw : Option String) (u : User) :
    (updatedUserRow hash uid un a pw u).username =
      if u.id == uid then un else u.username := by
  by_cases hc : u.id = uid <;> simp [updatedUserRow, hc]

theorem updatedUserRow_is_admin (hash : String → String) (uid : Nat)
    (un : String) (a : Bool) (pw : Option String) (u : User) :
    (updatedUserRow hash uid un a pw u).is_admin =
      if u.id == uid then a else u.is_admin := by
  by_cases hc : u.id = uid <;> simp [updatedUserRow, hc]

theorem update_user_record_ok_users (hash : String → String) (uid : Nat)
    (un : String) (a : Bool) (pw : Option String) (db db' : DB)
    (h : update_user_record hash uid un a pw db = Except.ok db') :
    ∃ row, db.users.find? (fun u => u.id == uid) = some row
      ∧ db'.users = db.users.map (updatedUserRow hash uid un a pw)
      ∧ (∀ u ∈ db.users, u.username = un → u.id = uid)
      ∧ (a = true ∨ row.is_admin = false ∨ 2 ≤ admin_count db) := by
  cases hf : db.users.find? (fun u => u.id == uid) with
  | none => simp [update_user_record, hf] at h
  | some row =>
    refine ⟨row, rfl, ?_⟩
    simp only [update_user_record, hf] at h
    split at h
    · rename_i hguard
      split at h
      · exact absurd h (by simp)
      · rename_i hle
        split at h
        · exact absurd h (by simp)
        · rename_i hconf
          simp only [Except.ok.injEq] at h
          refine ⟨by rw [← h], ?_, Or.inr (Or.inr (by omega))⟩
          intro u hu hun
          by_contra hne
          exact hconf (List.any_eq_true.mpr ⟨u, hu, by simp [hun, hne]⟩)
    · rename_i hguard
      split at h
      · exact absurd h (by simp)
      · rename_i hconf
        simp only [Except.ok.injEq] at h
        refine ⟨by rw [← h], ?_, ?_⟩
        · intro u hu hun
          by_contra hne
          exact hconf (List.any_eq_true.mpr ⟨u, hu, by simp [hun, hne]⟩)
        · rcases Bool.eq_false_or_eq_true a with ha | ha
          · exact Or.inl ha
          · rcases Bool.eq_false_or_eq_true row.is_admin with hrow | hrow
            · exact absurd (by simp [hrow, ha]) hguard
            · exact Or.inr (Or.inl hrow)

theorem nodup_usernames_after_rename (l : List User) (uid : Nat) (un : String)
    (hndn : (l.map User.username).Nodup) (hndi : (l.map User.id).Nodup)
    (hconf : ∀ u ∈ l, u.username = un → u.id = uid) :
    (l.map (fun u => if u.id == uid then un else u.username)).Nodup := by
  induction l with
  | nil => simp
  | cons a l ih =>
    rw [List.map_cons, List.nodup_cons] at hndn hndi
    obtain ⟨hna, hndn'⟩ := hndn
    obtain ⟨hia, hndi'⟩ := hndi
    have hconf' : ∀ u ∈ l, u.username = un → u.id = uid :=
      fun u hu => hconf u (List.mem_cons_of_mem a hu)
    rw [List.map_cons, List.nodup_cons]
    refine ⟨?_, ih hndn' hndi' hconf'⟩
    intro hmem
    obtain ⟨u, hu, hval⟩ := List.mem_map.mp hmem
    by_cases haid : a.id = uid
    · have ha' : (a.id == uid) = true := by simpa using haid
      have huid : ¬u.id = uid := by
        intro he
        apply hia
        rw [haid, ← he]
        exact List.mem_map_of_mem User.id hu
      have hu' : (u.id == uid) = false := by simpa using huid
      rw [ha', hu'] at hval
      simp only [Bool.false_eq_true, if_false, if_true] at hval
      exact huid (hconf' u hu hval)
    · have ha' : (a.id == uid) = false := by simpa using haid
      have hub : a.username ≠ un :=
        fun he => haid (hconf a (List.mem_cons_self a l) he)
      rw [ha'] at hval
      by_cases huid : u.id = uid
      · have hu' : (u.id == uid) = true := by simpa using huid
        rw [hu'] at hval
        simp only [Bool.false_eq_true, if_false, if_true] at hval
        exact hub hval.symm
      · have hu' : (u.id == uid) = false := by simpa using huid
        rw [hu'] at hval
        simp only [Bool.false_eq_true, if_false] at hval
        exact hna (hval ▸ List.mem_map_of_mem User.username hu)

theorem update_user_record_ok_preserves (hash : String → String) (uid : Nat)
    (un : String) (a : Bool) (pw : Option String) (db db' : DB)
    (hndn : (db.users.map User.username).Nodup)
    (hndi : (db.users.map User.id).Nodup)
    (hcount : 1 ≤ admin_count db)
    (h : update_user_record hash uid un a pw db = Except.ok db') :
    1 ≤ admin_count db'
    ∧ db'.users.length = db.users.length
    ∧ (db'.users.map User.username).Nodup
    ∧ db'.users.map User.id = db.users.map User.id := by
  obtain ⟨row, hf, husers, hconf, hcase⟩ :=
    update_user_record_ok_users hash uid un a pw db db' h
  have hrowmem : row ∈ db.users := List.mem_of_find?_eq_some hf
  have hrowid : row.id = uid := by simpa using List.find?_some hf
  refine ⟨?_, by rw [husers, List.length_map], ?_, ?_⟩
  · rw [admin_count_eq_countP, husers]
    rcases hcase with rfl | hrow | h2
    · have hmono := countP_le_countP_map db.users
        (updatedUserRow hash uid un true pw) (fun u => u.is_admin)
        (fun u _ hp => by
          simp only [updatedUserRow_is_admin]
          by_cases hc : (u.id == uid) = true <;> simp [hc, hp])
      rw [admin_count_eq_countP] at hcount
      omega
    · have hmono := countP_le_countP_map db.users
        (updatedUserRow hash uid un a pw) (fun u => u.is_admin)
        (fun u hu hp => by
          simp only [updatedUserRow_is_admin]
          by_cases hc : u.id = uid
          · have heq : u = row :=
              List.inj_on_of_nodup_map hndi hu hrowmem (by rw [hc, hrowid])
            rw [heq] at hp
            exact absurd hp (by simp [hrow])
          · simp [hc, hp])
      rw [admin_count_eq_countP] at hcount
      omega
    · have hsub := countP_sub_le_countP_map db.users
        (updatedUserRow hash uid un a pw)
        (fun u => u.id == uid) (fun u => u.is_admin)
        (fun u hq => by simp [updatedUserRow, hq])
      have hone := countP_key_le_one User.id uid db.users hndi
      rw [admin_count_eq_countP] at h2
      omega
  · have hmapped : db'.users.map User.username =
        db.users.map (fun u => if u.id == uid then un else u.username) := by
      rw [husers, List.map_map]
      exact List.map_congr_left (fun u _ => updatedUserRow_username hash uid un a pw u)
    rw [hmapped]
    exact nodup_usernames_after_rename db.users uid un hndn hndi hconf
  · rw [husers, List.map_map]
    exact List.map_congr_left (fun u _ => updatedUserRow_id hash uid un a pw u)

theorem applyAdminOp_preserves (hash : String → String) (db : DB) (op : AdminOp)
    (hndn : (db.users.map User.username).Nodup)
    (hndi : (db.users.map User.id).Nodup)
    (hne : db.users ≠ []) (hcount : 1 ≤ admin_count db) :
    ((applyAdminOp hash db op).users.map User.username).Nodup
    ∧ ((applyAdminOp hash db op).users.map User.id).Nodup
    ∧ (applyAdminOp hash db op).users ≠ []
    ∧ 1 ≤ admin_count (applyAdminOp hash db op) := by
  cases op with
  | setFlag un a =>
    cases hr : set_admin_flag un a db with
    | error e =>
      simpa [applyAdminOp, commitResult, hr] using ⟨hndn, hndi, hne, hcount⟩
    | ok db2 =>
      obtain ⟨hc, hl, hu, hi⟩ := set_admin_flag_ok_preserves un a db db2 hndn hcount hr
      have happ : applyAdminOp hash db (AdminOp.setFlag un a) = db2 := by
        simp [applyAdminOp, commitResult, hr]
      rw [happ]
      refine ⟨by rw [hu]; exact hndn, by rw [hi]; exact hndi, ?_, hc⟩
      intro hnil
      apply hne
      rw [hnil] at hl
      exact List.length_eq_zero.mp hl.symm
  | updateRec uid un a pw =>
    cases hr : update_user_record hash uid un a pw db with
    | error e =>
      simpa [applyAdminOp, commitResult, hr] using ⟨hndn, hndi, hne, hcount⟩
    | ok db2 =>
      obtain ⟨hc, hl, hu, hi⟩ :=
        update_user_record_ok_preserves hash uid un a pw db db2 hndn hndi hcount hr
      have happ : applyAdminOp hash db (AdminOp.updateRec uid un a pw) = db2 := by
        simp [applyAdminOp, commitResult, hr]
      rw [happ]
      refine ⟨hu, by rw [hi]; exact hndi, ?_, hc⟩
      intro hnil
      apply hne
      rw [hnil] at hl
      exact List.length_eq_zero.mp hl.symm

theorem applyAdminOps_preserves (hash : String → String) (ops : List AdminOp)
    (db : DB) (hndn : (db.users.map User.username).Nodup)
    (hndi : (db.users.map User.id).Nodup)
    (hne : db.users ≠ []) (hcount : 1 ≤ admin_count db) :
    ((applyAdminOps hash ops db).users.map User.username).Nodup
    ∧ ((applyAdminOps hash ops db).users.map User.id).Nodup
    ∧ (applyAdminOps hash ops db).users ≠ []
    ∧ 1 ≤ admin_count (applyAdminOps hash ops db) := by
  induction ops generalizing db with
  | nil => exact ⟨hndn, hndi, hne, hcount⟩
  | cons op ops ih =>
    obtain ⟨h1, h2, h3, h4⟩ := applyAdminOp_preserves hash db op hndn hndi hne hcount
    simpa [applyAdminOps, List.foldl_cons] using
      ih (applyAdminOp hash db op) h1 h2 h3 h4

theorem regInv_emptyDB : RegInv emptyDB :=
  ⟨rfl, by simp [emptyDB], rfl⟩

theorem regInv_one_le_admin_count (db : DB) (h : RegInv db)
    (hne : db.users ≠ []) : 1 ≤ admin_count db := by
  obtain ⟨hid, hadm, _⟩ := h
  have hlen : 0 < db.users.length := List.length_pos.mpr hne
  have h1 : (1 : Nat) ∈ db.users.map User.id := by
    rw [hid]
    exact List.mem_range'_1.mpr ⟨Nat.le_refl 1, by omega⟩
  obtain ⟨u, hu, hu1⟩ := List.mem_map.mp h1
  have hmem : u ∈ db.users.filter (fun v => v.is_admin) :=
    List.mem_filter.mpr ⟨hu, by simp [(hadm u hu).mpr hu1]⟩
  show 0 < (db.users.filter (fun v => v.is_admin)).length
  exact List.length_pos.mpr (List.ne_nil_of_mem hmem)

theorem register_preserves_regInv (hash : String → String) (un pw : String)
    (db : DB) (h : RegInv db) : RegInv (register hash un pw db).2 := by
  obtain ⟨hid, hadm, hnext⟩ := h
  cases hg : get_user un db with
  | some u => simpa [register, hg] using ⟨hid, hadm, hnext⟩
  | none =>
    have hany : db.users.any (fun v => v.username == un) = false := by
      rw [List.any_eq_false]
      intro v hv
      exact List.find?_eq_none.mp hg v hv
    have hcz : admin_count db = 0 ↔ db.users.length = 0 := by
      constructor
      · intro h0
        by_contra hne0
        have h1 := regInv_one_le_admin_count db ⟨hid, hadm, hnext⟩
          (fun hnil => hne0 (by simp [hnil]))
        omega
      · intro h0
        have : db.users = [] := List.length_eq_zero.mp h0
        simp [admin_count, this]
    simp only [register, hg, create_user, hany, Bool.false_eq_true, if_false]
    refine ⟨?_, ?_, ?_⟩
    · simp only [List.map_append, List.map_cons, List.map_nil, hid,
        List.length_append, List.length_cons, List.length_nil]
      rw [List.range'_concat]
      simp [hnext, Nat.add_comm]
    · intro u hu
      rcases List.mem_append.mp hu with hold | hnew
      · exact hadm u hold
      · have hu' : u = ⟨db.nextUserId, un, hash pw, admin_count db == 0⟩ := by
          simpa using hnew
        subst hu'
        simp only [beq_iff_eq, hnext]
        constructor
        · intro h0
          have := hcz.mp h0
          omega
        · intro h1
          exact hcz.mpr (by omega)
    · simp [hnext]

theorem regInv_applyRegisters (hash : String → String)
    (regs : List (String × String)) (db : DB) (h : RegInv db) :
    RegInv (applyRegisters hash regs db) := by
  induction regs generalizing db with
  | nil => simpa [applyRegisters] using h
  | cons r rs ih =>
    simp only [applyRegisters, List.foldl_cons]
    exact ih (register hash r.1 r.2 db).2 (register_preserves_regInv hash r.1 r.2 db h)

/-- C2: for every sequence of registrations starting from the empty
database, the row created by the first successful registration — position 0
in creation order — has `is_admin = true`, and every row created by a later
registration has `is_admin = false` (the handler grants the flag exactly
when `admin_count` is zero, which holds only before any user exists). -/
theorem C2_first_registered_user_is_admin (hash : String → String)
    (regs : List (String × String)) :
    ∀ i (h : i < (applyRegisters hash regs emptyDB).users.length),
      (((applyRegisters hash regs emptyDB).users.get ⟨i, h⟩).is_admin = true ↔
        i = 0) := by
  intro i h
  obtain ⟨hid, hadm, _⟩ := regInv_applyRegisters hash regs emptyDB regInv_emptyDB
  have hmap : i < ((applyRegisters hash regs emptyDB).users.map User.id).length := by
    simpa using h
  have hval : ((applyRegisters hash regs emptyDB).users.map User.id)[i] = 1 + i := by
    simp only [hid]
    simp [List.getElem_range']
  have hidx : ((applyRegisters hash regs emptyDB).users.get ⟨i, h⟩).id = 1 + i := by
    rw [List.get_eq_getElem]
    simpa using hval
  rw [hadm ((applyRegisters hash regs emptyDB).users.get ⟨i, h⟩)
    (List.get_mem _ i h), hidx]
  omega

/-- Witness for C2 at a concrete input: after registering "alice" then
"bob" from the empty database, the first-created row is an admin and the
second is not. -/
theorem C2_first_registered_user_is_admin_witness :
    (((applyRegisters (fun s => s) [("alice", "pw1"), ("bob", "pw2")]
      emptyDB).users.get ⟨0, by decide⟩).is_admin = true)
    ∧ ¬ (((applyRegisters (fun s => s) [("alice", "pw1"), ("bob", "pw2")]
      emptyDB).users.get ⟨1, by decide⟩).is_admin = true) :=
  ⟨(C2_first_registered_user_is_admin (fun s => s)
      [("alice", "pw1"), ("bob", "pw2")] 0 (by decide)).mpr rfl,
    fun hadm => by
      simpa using (C2_first_registered_user_is_admin (fun s => s)
        [("alice", "pw1"), ("bob", "pw2")] 1 (by decide)).mp hadm⟩

/-- C1: starting from any well-formed state (UNIQUE usernames, primary-key
ids) with at least one user row and at least one admin, no sequence of
`set_admin_flag` / `update_user_record` calls — failed calls leaving the
state unchanged — ever reaches a state with zero admins; and in any state
whose admin count is exactly one, demoting that sole admin, whether keyed
by username through `set_admin_flag` or by id through `update_user_record`,
fails with `InvariantViolation` and commits nothing. -/
theorem C1_last_admin_never_removed (hash : String → String)
    (ops : List AdminOp) (db : DB) (hwf : UsersWF db) (hne : db.users ≠ [])
    (hcount : 1 ≤ admin_count db) :
    ((applyAdminOps hash ops db).users ≠ []
      ∧ 1 ≤ admin_count (applyAdminOps hash ops db))
    ∧ (∀ un u, get_user un db = some u → u.is_admin = true →
        admin_count db = 1 →
        set_admin_flag un false db = Except.error StoreError.InvariantViolation
        ∧ commitResult db (set_admin_flag un false db) = db)
    ∧ (∀ uid un pw u, db.users.find? (fun v => v.id == uid) = some u →
        u.is_admin = true → admin_count db = 1 →
        update_user_record hash uid un false pw db =
          Except.error StoreError.InvariantViolation
        ∧ commitResult db (update_user_record hash uid un false pw db) = db) := by
  obtain ⟨hndn, hndi⟩ := hwf
  refine ⟨?_, ?_, ?_⟩
  · obtain ⟨h1, h2, h3, h4⟩ := applyAdminOps_preserves hash ops db hndn hndi hne hcount
    exact ⟨h3, h4⟩
  · intro un u hu hadm hone
    have herr : set_admin_flag un false db =
        Except.error StoreError.InvariantViolation := by
      simp only [set_admin_flag, hu]
      simp [hadm, hone]
    exact ⟨herr, by rw [herr]; rfl⟩
  · intro uid un pw u hu hadm hone
    have herr : update_user_record hash uid un false pw db =
        Except.error StoreError.InvariantViolation := by
      simp only [update_user_record, hu]
      simp [hadm, hone]
    exact ⟨herr, by rw [herr]; rfl⟩

/-- Witness for C1 at concrete inputs: in `dbSample` (one admin "alice",
one user "bob"), a sequence attempting to demote alice by username and then
by id leaves a nonempty store that still has an admin, and the direct
demotion of the sole admin fails with `InvariantViolation`. -/
theorem C1_last_admin_never_removed_witness :
    (applyAdminOps (fun s => s)
      [AdminOp.setFlag "alice" false, AdminOp.updateRec 1 "alice" false none]
      dbSample).users ≠ []
    ∧ 1 ≤ admin_count (applyAdminOps (fun s => s)
      [AdminOp.setFlag "alice" false, AdminOp.updateRec 1 "alice" false none]
      dbSample)
    ∧ set_admin_flag "alice" false dbSample =
      Except.error StoreError.InvariantViolation :=
  ⟨(C1_last_admin_never_removed (fun s => s)
      [AdminOp.setFlag "alice" false, AdminOp.updateRec 1 "alice" false none]
      dbSample ⟨by decide, by decide⟩ (by decide) (by decide)).1.1,
    (C1_last_admin_never_removed (fun s => s)
      [AdminOp.setFlag "alice" false, AdminOp.updateRec 1 "alice" false none]
      dbSample ⟨by decide, by decide⟩ (by decide) (by decide)).1.2,
    ((C1_last_admin_never_removed (fun s => s)
      [AdminOp.setFlag "alice" false, AdminOp.updateRec 1 "alice" false none]
      dbSample ⟨by decide, by decide⟩ (by decide) (by decide)).2.1 "alice"
      ⟨1, "alice", "h1", true⟩ (by decide) rfl (by decide)).1⟩

end CloudAuth
